import Mathlib

/-!
Verification of the reMarkable Calibre device plugin
(`plugin/rm_data.py`, `plugin/rm_web_interface.py`, `plugin/__init__.py`).

The Python source is shallowly embedded: pure fragments become Lean
functions, byte strings become `String`, dictionaries keyed by name become
association lists, and the HTTP layer is abstracted as explicit
request-event traces and response parameters.
-/

set_option maxRecDepth 16384

namespace RMPlugin

/-! ## Generic string helpers (embedding Python's `in`, `os.path` and
`posixpath` operations used by the plugin) -/

/-- Python's substring test `needle in hay` on strings. -/
def isSubstr (needle hay : String) : Bool :=
  hay.data.tails.any (fun t => needle.data.isPrefixOf t)

/-- `str.startswith` (char-list form, kernel-evaluable). -/
def strStartsWith (s pre : String) : Bool := pre.data.isPrefixOf s.data

/-- `str.endswith` (char-list form, kernel-evaluable). -/
def strEndsWith (s suf : String) : Bool := suf.data.isSuffixOf s.data

/-- `posixpath.dirname`: everything before the final slash, with trailing
slashes stripped unless the result is all slashes. -/
def pdirname (p : String) : String :=
  let cs := p.data
  match cs.reverse.findIdx? (fun c => c = '/') with
  | none => ""
  | some k =>
    let head := cs.take (cs.length - k)
    if head.all (fun c => c = '/') then String.mk head
    else String.mk ((head.reverse.dropWhile (fun c => c = '/')).reverse)

/-- `posixpath.join a b` for the two-argument case used in the source. -/
def pjoin (a b : String) : String :=
  if strStartsWith b "/" then b
  else if a = "" then b
  else if strEndsWith a "/" then a ++ b
  else a ++ "/" ++ b

/-- `os.path.basename` (POSIX behaviour): the component after the last "/". -/
def basename (p : String) : String :=
  String.mk ((p.data.reverse.takeWhile (fun c => c ≠ '/')).reverse)

/-- `str.lower` (char-list form). -/
def strLower (s : String) : String := String.mk (s.data.map Char.toLower)

/-- The extension part of `os.path.splitext`: the suffix of the last path
component from its last dot, where leading dots never start an extension. -/
def splitextExt (p : String) : String :=
  let base := (basename p).data
  let rest := base.drop (base.takeWhile (fun c => c = '.')).length
  match rest.reverse.findIdx? (fun c => c = '.') with
  | none => ""
  | some k => String.mk (rest.drop (rest.length - 1 - k))

/-! Helper lemmas about `isSubstr`. -/

theorem isPrefixOf_append_self (l t : List Char) : l.isPrefixOf (l ++ t) = true := by
  induction l with
  | nil => simp [List.isPrefixOf]
  | cons c cs ih => simp [List.isPrefixOf, ih]

theorem mem_tails_append (a b : List Char) : b ∈ (a ++ b).tails := by
  induction a with
  | nil => cases b <;> simp [List.tails]
  | cons c cs ih =>
    rw [List.cons_append, List.tails_cons]
    exact List.mem_cons_of_mem _ ih

/-- A string occurring literally between two others is found by `isSubstr`. -/
theorem isSubstr_sandwich (x a b : String) : isSubstr x (a ++ x ++ b) = true := by
  unfold isSubstr
  rw [List.any_eq_true]
  refine ⟨x.data ++ b.data, ?_, ?_⟩
  · have h := mem_tails_append a.data (x.data ++ b.data)
    simp only [String.data_append, List.append_assoc]
    exact h
  · exact isPrefixOf_append_self x.data b.data

theorem isSubstr_nil_left (hay : String) : isSubstr "" hay = true := by
  have h : isSubstr "" hay = isSubstr "" ("" ++ "" ++ hay) := by rfl
  rw [h]
  exact isSubstr_sandwich "" "" hay

/-- Right-associated variant of `isSubstr_sandwich`. -/
theorem isSubstr_sandwich' (x a b : String) : isSubstr x (a ++ (x ++ b)) = true := by
  rw [← String.append_assoc]
  exact isSubstr_sandwich x a b

theorem mem_tails_append_of_mem {t : List Char} (a : List Char) {s : List Char}
    (h : t ∈ s.tails) : t ∈ (a ++ s).tails := by
  induction a with
  | nil => simpa using h
  | cons c cs ih =>
    rw [List.cons_append, List.tails_cons]
    exact List.mem_cons_of_mem _ ih

/-- A substring of `s` is a substring of `a ++ s`. -/
theorem isSubstr_append_left (a : String) {x s : String}
    (h : isSubstr x s = true) : isSubstr x (a ++ s) = true := by
  unfold isSubstr at h ⊢
  rw [List.any_eq_true] at h ⊢
  obtain ⟨t, ht, hp⟩ := h
  exact ⟨t, by rw [String.data_append]; exact mem_tails_append_of_mem a.data ht, hp⟩

/-- `isSubstr x (x ++ b)`. -/
theorem isSubstr_self_append (x b : String) : isSubstr x (x ++ b) = true := by
  have h := isSubstr_sandwich x "" b
  simpa using h

theorem self_mem_tails (l : List Char) : l ∈ l.tails := by
  cases l with
  | nil => simp [List.tails]
  | cons a t =>
    rw [List.tails_cons]
    exact List.mem_cons_self _ _

theorem isSubstr_refl (x : String) : isSubstr x x = true := by
  have h := isPrefixOf_append_self x.data []
  rw [List.append_nil] at h
  unfold isSubstr
  rw [List.any_eq_true]
  exact ⟨x.data, self_mem_tails x.data, h⟩

/-- `isSubstr x (a ++ x)`. -/
theorem isSubstr_append_self_right (a x : String) : isSubstr x (a ++ x) = true :=
  isSubstr_append_left a (isSubstr_refl x)

theorem append_mem_tails_append {t : List Char} (l m : List Char)
    (h : t ∈ l.tails) : t ++ m ∈ (l ++ m).tails := by
  induction l with
  | nil =>
    simp only [List.tails] at h
    rcases List.mem_singleton.mp h with rfl
    exact self_mem_tails m
  | cons a l ih =>
    rw [List.tails_cons] at h
    rcases List.mem_cons.mp h with rfl | hm
    · rw [List.cons_append, List.tails_cons]
      exact List.mem_cons_self _ _
    · rw [List.cons_append, List.tails_cons]
      exact List.mem_cons_of_mem _ (ih hm)

/-- A substring of `s` is a substring of `s ++ b`. -/
theorem isSubstr_append_right (b : String) {y s : String}
    (h : isSubstr y s = true) : isSubstr y (s ++ b) = true := by
  unfold isSubstr at h ⊢
  rw [List.any_eq_true] at h ⊢
  obtain ⟨t, ht, hp⟩ := h
  refine ⟨t ++ b.data, ?_, ?_⟩
  · rw [String.data_append]
    exact append_mem_tails_append s.data b.data ht
  · rw [List.isPrefixOf_iff_prefix] at hp ⊢
    exact hp.trans (List.prefix_append t b.data)

/-- Python's `sep.join(l)`. -/
def joinWith (sep : String) : List String → String
  | [] => ""
  | [x] => x
  | x :: y :: rest => x ++ sep ++ joinWith sep (y :: rest)

/-- A substring of a member of `l` is a substring of `sep.join(l)`. -/
theorem isSubstr_joinWith (sep y x : String) (hs : isSubstr y x = true) :
    ∀ l : List String, x ∈ l → isSubstr y (joinWith sep l) = true := by
  intro l
  induction l with
  | nil =>
    intro h
    cases h
  | cons a rest ih =>
    intro hx
    rcases List.mem_cons.mp hx with rfl | hm
    · cases rest with
      | nil => exact hs
      | cons b tl =>
        have hj : joinWith sep (x :: b :: tl) = (x ++ sep) ++ joinWith sep (b :: tl) := rfl
        rw [hj]
        exact isSubstr_append_right _ (isSubstr_append_right _ hs)
    · cases rest with
      | nil => cases hm
      | cons b tl =>
        have hj : joinWith sep (a :: b :: tl) = (a ++ sep) ++ joinWith sep (b :: tl) := rfl
        rw [hj]
        exact isSubstr_append_left _ (ih hm)

/-! ## Book identity model (`plugin/rm_data.py`, class `Book`)

Fields not consulted by `Book.__eq__` but present on the dataclass are kept
with their defaults (`authors`, `size`, `tags` stand in for the metadata
block; `datetime`/`thumbnail` are runtime objects irrelevant to identity). -/

structure Book where
  title : String
  uuid : String
  rm_uuid : String := ""
  authors : List String := []
  size : Nat := 0
  tags : List String := []
  path : String := "/"
deriving DecidableEq, Repr

/-- `Book.__eq__`: three ordered identifier tiers, each requiring both
sides non-empty; the path tier additionally excludes the root `"/"`. -/
def Book.beq (a b : Book) : Bool :=
  if a.rm_uuid != "" && b.rm_uuid != "" && a.rm_uuid == b.rm_uuid then true
  else if a.uuid != "" && b.uuid != "" && a.uuid == b.uuid then true
  else if a.path != "" && b.path != "" && a.path != "/" && b.path != "/" && a.path == b.path then true
  else false

/-- Characterisation of `Book.beq` as a disjunction of the three tiers. -/
theorem Book.beq_iff (a b : Book) :
    Book.beq a b = true ↔
      (a.rm_uuid ≠ "" ∧ b.rm_uuid ≠ "" ∧ a.rm_uuid = b.rm_uuid) ∨
      (a.uuid ≠ "" ∧ b.uuid ≠ "" ∧ a.uuid = b.uuid) ∨
      (a.path ≠ "" ∧ b.path ≠ "" ∧ a.path ≠ "/" ∧ b.path ≠ "/" ∧ a.path = b.path) := by
  unfold Book.beq
  repeat' split
  all_goals simp_all only [Bool.and_eq_true, bne_iff_ne, beq_iff_eq, not_and, true_iff, false_iff]
  all_goals tauto

/-- C1: Book equality is decided by three ordered tiers — `a == b` holds
iff both `rm_uuid`s are non-empty and equal, or both `uuid`s are non-empty
and equal, or both `path`s are non-empty, non-root, and equal; otherwise
`a == b` is false. -/
theorem C1_book_equality_tiers (a b : Book) :
    Book.beq a b = true ↔
      (a.rm_uuid ≠ "" ∧ b.rm_uuid ≠ "" ∧ a.rm_uuid = b.rm_uuid) ∨
      (a.uuid ≠ "" ∧ b.uuid ≠ "" ∧ a.uuid = b.uuid) ∨
      (a.path ≠ "" ∧ b.path ≠ "" ∧ a.path ≠ "/" ∧ b.path ≠ "/" ∧ a.path = b.path) :=
  Book.beq_iff a b

/-! ### C5: reflexivity, symmetry, non-transitivity of `Book.__eq__` -/

theorem Book.beq_true_symm {a b : Book} (h : Book.beq a b = true) :
    Book.beq b a = true := by
  rw [Book.beq_iff] at h ⊢
  rcases h with ⟨h1, h2, h3⟩ | ⟨h1, h2, h3⟩ | ⟨h1, h2, h3, h4, h5⟩
  · exact Or.inl ⟨h2, h1, h3.symm⟩
  · exact Or.inr (Or.inl ⟨h2, h1, h3.symm⟩)
  · exact Or.inr (Or.inr ⟨h2, h1, h4, h3, h5.symm⟩)

/-- A Book carrying no identifier at all: empty `rm_uuid`, empty `uuid`,
root path (the dataclass defaults for a title-only Book). -/
def bookNoId : Book := { title := "untitled", uuid := "" }

/-- Witness Book A of the non-transitivity triple: only a device id. -/
def bookA : Book := { title := "A", uuid := "", rm_uuid := "x" }

/-- Witness Book B of the non-transitivity triple: device id and library id. -/
def bookB : Book := { title := "B", uuid := "y", rm_uuid := "x" }

/-- Witness Book C of the non-transitivity triple: only a library id. -/
def bookC : Book := { title := "C", uuid := "y" }

/-- C5 counterexample: `Book.__eq__` is not reflexive as claimed — a Book
with empty `rm_uuid`, empty `uuid` and root path `"/"` is unequal to
itself, because no tier is satisfiable. -/
theorem C5_counterexample_not_reflexive : Book.beq bookNoId bookNoId = false := by decide

/-- C5 (amended): Book equality is reflexive for every Book carrying at
least one usable identifier (non-empty `rm_uuid`, non-empty `uuid`, or a
non-empty non-root `path`), symmetric for all Books, and not transitive:
A(rm_uuid="x"), B(uuid="y", rm_uuid="x"), C(uuid="y") satisfy A == B and
B == C but not A == C. -/
theorem C5_book_equality_relational :
    (∀ b : Book, (b.rm_uuid ≠ "" ∨ b.uuid ≠ "" ∨ (b.path ≠ "" ∧ b.path ≠ "/")) →
      Book.beq b b = true)
    ∧ (∀ a b : Book, Book.beq a b = Book.beq b a)
    ∧ (Book.beq bookA bookB = true ∧ Book.beq bookB bookC = true ∧
       Book.beq bookA bookC = false) := by
  refine ⟨?_, ?_, by decide, by decide, by decide⟩
  · intro b hb
    rw [Book.beq_iff]
    rcases hb with h | h | h
    · exact Or.inl ⟨h, h, rfl⟩
    · exact Or.inr (Or.inl ⟨h, h, rfl⟩)
    · exact Or.inr (Or.inr ⟨h.1, h.1, h.2, h.2, rfl⟩)
  · intro a b
    cases hab : Book.beq a b <;> cases hba : Book.beq b a <;> try rfl
    · have h := Book.beq_true_symm hba
      rw [hab] at h
      exact h
    · have h := Book.beq_true_symm hab
      rw [hba] at h
      exact h.symm

/-- C5 witness: the reflexivity clause applied to the concrete Book A. -/
theorem C5_witness : Book.beq bookA bookA = true :=
  C5_book_equality_relational.1 bookA (Or.inl (by decide))

/-! ## EPUB repackaging (`plugin/rm_web_interface.py`)

An archive is a list of `(name, data)` pairs in on-disk order; Python's
`ZipFile.read(name)` resolves a name through `NameToInfo`, where the last
entry with a given name wins. -/

/-- `ZipFile.read` by name: the last entry with that name wins. -/
def zread (zf : List (String × String)) (n : String) : Option String :=
  (zf.reverse.find? (fun p => p.1 = n)).map (fun p => p.2)

/-- An OPF `<item>` of the manifest: `id`, `href`, `media-type` attributes,
with `""` standing for an absent attribute (Python's falsy `None`/`""`). -/
structure OpfItem where
  id : String
  href : String
  mediaType : String
deriving DecidableEq, Repr

/-- An OPF `<guide>` `<reference>`: `type`, `title`, `href` attributes. -/
structure GuideRef where
  rtype : String
  title : String
  href : String
deriving DecidableEq, Repr

/-- The parsed OPF package document, as the fields `_ensure_cover_page`
reads and writes: `<meta>` elements (namespaced and plain, each with its
`name`/`content` attributes), the `<manifest>` item list, the `<spine>`
idref list and the `<guide>` reference list; `none` models an absent
element. -/
structure Opf where
  metasNs : List (String × String)
  metasPlain : List (String × String)
  manifest : Option (List OpfItem)
  spine : Option (List String)
  guide : Option (List GuideRef)
deriving DecidableEq, Repr

/-- Cover-image id lookup: the first namespaced `<meta name="cover">`
provides `content`; if that is falsy, the first plain `<meta name="cover">`
is consulted (`_ensure_cover_page`, the two `meta` loops). -/
def findCoverId (opf : Opf) : String :=
  let c := match opf.metasNs.find? (fun m => m.1 = "cover") with
           | some m => m.2
           | none => ""
  if c = "" then
    match opf.metasPlain.find? (fun m => m.1 = "cover") with
    | some m => m.2
    | none => ""
  else c

/-- Manifest lookup of the cover image: the first item with the cover id,
accepted only when its media type starts with `image/` (the `break` after
the first id match). -/
def coverHrefOf (items : List OpfItem) (cid : String) : String :=
  match items.find? (fun it => it.id = cid) with
  | some it => if strStartsWith it.mediaType "image/" then it.href else ""
  | none => ""

/-- Whether the first reading-order page already references the cover:
resolve the first spine idref in the manifest, read that page from the
archive (a missing file is a swallowed `KeyError`), and test substring
containment of the cover href. -/
def firstPageHasCover (zf : List (String × String)) (items : List OpfItem)
    (firstRef opfPath chref : String) : Bool :=
  match items.find? (fun it => it.id = firstRef) with
  | some it =>
    match zread zf (if pdirname opfPath = "" then it.href
                    else pjoin (pdirname opfPath) it.href) with
    | some text => isSubstr chref text
    | none => false
  | none => false

/-- The manifest item `_ensure_cover_page` appends for the injected page. -/
def coverManifestItem : OpfItem :=
  { id := "rm-cover-page", href := "rm_cover.xhtml", mediaType := "application/xhtml+xml" }

/-- The guide reference `_ensure_cover_page` appends. -/
def coverGuideRef : GuideRef := { rtype := "cover", title := "Cover", href := "rm_cover.xhtml" }

/-- Archive path of the injected page, relative to the OPF's directory. -/
def pageZipPath (opfPath : String) : String :=
  if pdirname opfPath = "" then "rm_cover.xhtml"
  else pjoin (pdirname opfPath) "rm_cover.xhtml"

/-- `_COVER_PAGE_HTML` up to the `src` attribute value. -/
def coverHtmlPre : String :=
  "<?xml version=\"1.0\" encoding=\"UTF-8\"?>\n<html xmlns=\"http://www.w3.org/1999/xhtml\">\n<head><title>Cover</title></head>\n<body style=\"margin:0;padding:0;\">\n<div style=\"text-align:center;\">\n<img src=\""

/-- `_COVER_PAGE_HTML` after the `src` attribute value. -/
def coverHtmlPost : String :=
  "\" style=\"max-width:100%;max-height:100%;\" alt=\"Cover\"/>\n</div>\n</body>\n</html>\n"

/-- `_COVER_PAGE_HTML.format(href=...)`. -/
def coverPageHtml (chref : String) : String := coverHtmlPre ++ chref ++ coverHtmlPost

/-- The package document after injection: manifest gains the cover page
item, the spine gains a first `rm-cover-page` reference, the guide gains a
cover reference (created when absent). -/
def patchedOpf (opf : Opf) (items : List OpfItem) (r : String) (rs : List String) : Opf :=
  { opf with
      manifest := some (items ++ [coverManifestItem]),
      spine := some ("rm-cover-page" :: r :: rs),
      guide := some (opf.guide.getD [] ++ [coverGuideRef]) }

/-- `_ensure_cover_page(zf, opf_path, opf_bytes)`: returns the patched
package document (or `none`) and the new files to add. The OPF travels as
its parsed structure; serialisation and re-parsing between the two passes
preserve exactly these fields. -/
def ensureCoverPage (zf : List (String × String)) (opfPath : String) (opf : Opf) :
    Option Opf × List (String × String) :=
  if findCoverId opf = "" then (none, [])
  else match opf.manifest with
  | none => (none, [])
  | some items =>
    if coverHrefOf items (findCoverId opf) = "" then (none, [])
    else match opf.spine with
    | none => (none, [])
    | some [] => (none, [])
    | some (r :: rs) =>
      if firstPageHasCover zf items r opfPath (coverHrefOf items (findCoverId opf))
      then (none, [])
      else (some (patchedOpf opf items r rs),
            [(pageZipPath opfPath, coverPageHtml (coverHrefOf items (findCoverId opf)))])

/-- A ZIP entry as `_prepare_epub` writes them: name, data, compression
method (`0` = `ZIP_STORED`, `8` = `ZIP_DEFLATED`) and the extra field. -/
structure ZEntry where
  filename : String
  data : String
  compressType : Nat
  extra : String
deriving DecidableEq, Repr

def ZIP_STORED : Nat := 0

def ZIP_DEFLATED : Nat := 8

/-- The marker entry `_prepare_epub` writes first: a clean `ZipInfo`
named `mimetype`, stored, with an emptied extra field, containing the
literal bytes `application/epub+zip`. -/
def mimetypeEntry : ZEntry :=
  { filename := "mimetype", data := "application/epub+zip",
    compressType := ZIP_STORED, extra := "" }

/-- The archive body `_prepare_epub` writes on the success path, given the
source entries, the OPF path and the outcome of `_ensure_cover_page`:
the mimetype marker first, then every source entry except `mimetype`
re-read by name and deflated (the patched OPF substituted when present),
then the newly generated files. -/
def prepareEpubEntries (src : List ZEntry) (opfPath : String)
    (patchedOpf : Option String) (newFiles : List (String × String)) : List ZEntry :=
  mimetypeEntry ::
  (((src.filter (fun it => it.filename ≠ "mimetype")).map (fun it =>
    let d := (zread (src.map (fun e => (e.filename, e.data))) it.filename).getD ""
    let d := match patchedOpf with
             | some p => if it.filename = opfPath then p else d
             | none => d
    { filename := it.filename, data := d, compressType := ZIP_DEFLATED, extra := "" }))
  ++ newFiles.map (fun f => { filename := f.1, data := f.2,
                              compressType := ZIP_DEFLATED, extra := "" }))

/-- C2: on the repackaging success path, the output archive's first entry
is `mimetype`, stored uncompressed with an empty extra field and exactly
the bytes `application/epub+zip`; every other entry of the source archive
is copied after it (followed only by newly generated files). -/
theorem C2_mimetype_first (src : List ZEntry) (opfPath : String)
    (patchedOpf : Option String) (newFiles : List (String × String)) :
    (prepareEpubEntries src opfPath patchedOpf newFiles).head? =
      some { filename := "mimetype", data := "application/epub+zip",
             compressType := ZIP_STORED, extra := "" }
    ∧ (prepareEpubEntries src opfPath patchedOpf newFiles).tail.map (fun e => e.filename) =
        (src.filter (fun it => it.filename ≠ "mimetype")).map (fun e => e.filename)
          ++ newFiles.map (fun f => f.1) := by
  refine ⟨rfl, ?_⟩
  simp only [prepareEpubEntries, List.tail_cons, List.map_append, List.map_map]
  rfl

/-- The rebuilt archive as a name-to-data source for a second pass:
`_prepare_epub`'s output entries projected to `(name, data)` pairs. `pd`
is the serialised patched package document written at the OPF path. -/
def archiveAfterPrepare (zf : List (String × String)) (opfPath pd : String)
    (newFiles : List (String × String)) : List (String × String) :=
  (prepareEpubEntries (zf.map (fun p => ⟨p.1, p.2, ZIP_DEFLATED, ""⟩))
      opfPath (some pd) newFiles).map (fun e => (e.filename, e.data))

theorem zread_append_single (l : List (String × String)) (n d : String) :
    zread (l ++ [(n, d)]) n = some d := by
  unfold zread
  rw [List.reverse_append]
  simp

/-- A freshly added file at the end of the rebuilt archive is what a read
of its name returns (the last entry with a name wins). -/
theorem zread_archiveAfterPrepare (zf : List (String × String)) (opfPath pd n d : String) :
    zread (archiveAfterPrepare zf opfPath pd [(n, d)]) n = some d := by
  unfold archiveAfterPrepare prepareEpubEntries
  simp only [List.map_cons, List.map_nil, List.map_append, List.map_map]
  rw [← List.cons_append]
  exact zread_append_single _ n d

/-- C4 (amended): cover injection is idempotent provided the original
manifest contains no item that already uses the reserved injected id
`rm-cover-page`. Whenever the first `_ensure_cover_page` pass injects —
the declared cover id resolves to an image item with a non-empty href, the
spine is non-empty, and the first reading-order page does not reference
the cover — the repackaged archive's second pass finds the injected page
first in reading order, sees the cover reference in it, and returns no
patched package document and no new files. -/
theorem C4_cover_injection_idempotent
    (zf : List (String × String)) (opfPath pd : String) (opf : Opf)
    (items : List OpfItem) (it : OpfItem) (r : String) (rs : List String)
    (hman : opf.manifest = some items)
    (hcid : findCoverId opf ≠ "")
    (hfind : items.find? (fun x => x.id = findCoverId opf) = some it)
    (hmedia : strStartsWith it.mediaType "image/" = true)
    (hhref : it.href ≠ "")
    (hspine : opf.spine = some (r :: rs))
    (hfp : firstPageHasCover zf items r opfPath it.href = false)
    (hids : items.all (fun x => x.id != "rm-cover-page") = true) :
    ensureCoverPage zf opfPath opf =
      (some (patchedOpf opf items r rs), [(pageZipPath opfPath, coverPageHtml it.href)])
    ∧ ensureCoverPage
        (archiveAfterPrepare zf opfPath pd [(pageZipPath opfPath, coverPageHtml it.href)])
        opfPath (patchedOpf opf items r rs) = (none, []) := by
  have hchref : coverHrefOf items (findCoverId opf) = it.href := by
    unfold coverHrefOf
    rw [hfind]
    simp [hmedia]
  constructor
  · unfold ensureCoverPage
    rw [if_neg hcid, hman]
    simp only [hchref, hspine, hfp]
    simp [hhref]
  · unfold ensureCoverPage
    have hcid2 : findCoverId (patchedOpf opf items r rs) = findCoverId opf := rfl
    have hman2 : (patchedOpf opf items r rs).manifest = some (items ++ [coverManifestItem]) := rfl
    have hspine2 : (patchedOpf opf items r rs).spine = some ("rm-cover-page" :: r :: rs) := rfl
    have hchref2 : coverHrefOf (items ++ [coverManifestItem]) (findCoverId opf) = it.href := by
      unfold coverHrefOf
      rw [List.find?_append, hfind]
      simp [hmedia]
    have hnone : items.find? (fun x => x.id = "rm-cover-page") = none := by
      rw [List.find?_eq_none]
      intro x hx
      have hx2 := List.all_eq_true.mp hids x hx
      simpa using hx2
    have hz := zread_archiveAfterPrepare zf opfPath pd (pageZipPath opfPath)
      (coverPageHtml it.href)
    have hfp2 : firstPageHasCover
        (archiveAfterPrepare zf opfPath pd [(pageZipPath opfPath, coverPageHtml it.href)])
        (items ++ [coverManifestItem]) "rm-cover-page" opfPath it.href = true := by
      unfold firstPageHasCover
      rw [List.find?_append, hnone]
      have hfcov : List.find? (fun x => x.id = "rm-cover-page") [coverManifestItem] =
          some coverManifestItem := by decide
      simp only [Option.none_or, hfcov]
      show (match zread
              (archiveAfterPrepare zf opfPath pd [(pageZipPath opfPath, coverPageHtml it.href)])
              (pageZipPath opfPath) with
            | some text => isSubstr it.href text
            | none => false) = true
      rw [hz]
      show isSubstr it.href (coverPageHtml it.href) = true
      rw [coverPageHtml]
      exact isSubstr_sandwich it.href coverHtmlPre coverHtmlPost
    rw [hcid2, if_neg hcid, hman2]
    simp only [hchref2, hspine2, hfp2]
    simp [hhref]

/-- An archive whose manifest already uses the reserved id `rm-cover-page`
for a decoy page: cover metadata and image present, first spine page does
not reference the cover. -/
def opfEvil : Opf :=
  { metasNs := [("cover", "c")], metasPlain := [],
    manifest := some [⟨"rm-cover-page", "evil.xhtml", "application/xhtml+xml"⟩,
                      ⟨"c", "cover.jpg", "image/jpeg"⟩,
                      ⟨"p1", "page1.xhtml", "application/xhtml+xml"⟩],
    spine := some ["p1"], guide := none }

/-- The archive contents accompanying `opfEvil`. -/
def zfEvil : List (String × String) :=
  [("mimetype", "application/epub+zip"), ("content.opf", "opf-bytes"),
   ("page1.xhtml", "first page text"), ("evil.xhtml", "decoy"), ("cover.jpg", "JPEG")]

/-- What the first pass produces on `opfEvil`. -/
def opfEvil1 : Opf :=
  { metasNs := [("cover", "c")], metasPlain := [],
    manifest := some [⟨"rm-cover-page", "evil.xhtml", "application/xhtml+xml"⟩,
                      ⟨"c", "cover.jpg", "image/jpeg"⟩,
                      ⟨"p1", "page1.xhtml", "application/xhtml+xml"⟩,
                      coverManifestItem],
    spine := some ["rm-cover-page", "p1"],
    guide := some [coverGuideRef] }

/-- C4 counterexample: cover injection is not idempotent for every epub
archive. On `opfEvil` — whose manifest already contains an item with the
reserved id `rm-cover-page` pointing at a decoy page — the first pass
injects, and the second pass resolves the new first reading-order
reference to the decoy instead of the injected page, fails to see the
cover reference, and injects again (a duplicate manifest entry and spine
reference) instead of returning no patch and no files. -/
theorem C4_counterexample :
    ensureCoverPage zfEvil "content.opf" opfEvil =
      (some opfEvil1, [("rm_cover.xhtml", coverPageHtml "cover.jpg")])
    ∧ ensureCoverPage
        (archiveAfterPrepare zfEvil "content.opf" "patched-bytes"
          [("rm_cover.xhtml", coverPageHtml "cover.jpg")])
        "content.opf" opfEvil1 ≠ (none, []) := by
  constructor
  · decide
  · decide

/-- C4 witness: a well-formed archive (no reserved-id clash) on which the
amended idempotence theorem applies: the second pass is a no-op. -/
theorem C4_witness :
    ensureCoverPage
      (archiveAfterPrepare
        [("mimetype", "application/epub+zip"), ("OEBPS/content.opf", "opf"),
         ("OEBPS/page1.xhtml", "hello world"), ("OEBPS/cover.jpg", "JPEG")]
        "OEBPS/content.opf" "pd"
        [(pageZipPath "OEBPS/content.opf", coverPageHtml "cover.jpg")])
      "OEBPS/content.opf"
      (patchedOpf
        { metasNs := [("cover", "cov-img")], metasPlain := [],
          manifest := some [⟨"cov-img", "cover.jpg", "image/jpeg"⟩,
                            ⟨"p1", "page1.xhtml", "application/xhtml+xml"⟩],
          spine := some ["p1"], guide := none }
        [⟨"cov-img", "cover.jpg", "image/jpeg"⟩,
         ⟨"p1", "page1.xhtml", "application/xhtml+xml"⟩]
        "p1" []) = (none, []) :=
  (C4_cover_injection_idempotent
    [("mimetype", "application/epub+zip"), ("OEBPS/content.opf", "opf"),
     ("OEBPS/page1.xhtml", "hello world"), ("OEBPS/cover.jpg", "JPEG")]
    "OEBPS/content.opf" "pd"
    { metasNs := [("cover", "cov-img")], metasPlain := [],
      manifest := some [⟨"cov-img", "cover.jpg", "image/jpeg"⟩,
                        ⟨"p1", "page1.xhtml", "application/xhtml+xml"⟩],
      spine := some ["p1"], guide := none }
    [⟨"cov-img", "cover.jpg", "image/jpeg"⟩,
     ⟨"p1", "page1.xhtml", "application/xhtml+xml"⟩]
    ⟨"cov-img", "cover.jpg", "image/jpeg"⟩ "p1" []
    rfl (by decide) (by decide) (by decide) (by decide) rfl (by decide) (by decide)).2

/-! ## Upload transport (`plugin/rm_web_interface.py`, `upload_file` and
`_build_multipart`) -/

/-- `_MIME_TYPES.get(ext) or mimetypes.guess_type(filename)[0] or
"application/octet-stream"`; the `mimetypes` stdlib guess is a
collaborator and enters as a parameter. -/
def resolveContentType (filename : String) (guess : Option String) : String :=
  let ext := strLower (splitextExt filename)
  if ext = ".epub" then "application/epub+zip"
  else if ext = ".pdf" then "application/pdf"
  else guess.getD "application/octet-stream"

/-- `_build_multipart(filename, file_data)`: the single-part body, with
the boundary's random hex suffix as a parameter. -/
def buildMultipart (boundary filename contentType fileData : String) : String :=
  "--" ++ boundary ++ "\r\n" ++
  "Content-Disposition: form-data; name=\"file\"; filename=\"" ++ filename ++ "\"\r\n" ++
  "Content-Type: " ++ contentType ++ "\r\n" ++
  "\r\n" ++ fileData ++ "\r\n" ++
  "--" ++ boundary ++ "--\r\n"

/-- The message of the `RuntimeError` raised by `upload_file` on a
non-success HTTP status (the f-string at the `except HTTPError` handler),
written right-associated. -/
def uploadErrorMsg (code : Nat) (errorBody displayName : String) (bodyLen : Nat) : String :=
  "Upload failed (HTTP " ++ (toString code ++ ("): " ++
    ((if errorBody = "" then "no details" else errorBody) ++
      (" [file=" ++ (displayName ++ (", size=" ++ (toString bodyLen ++ "]")))))))

/-- Outcome of `POST /upload` as seen by `upload_file`. -/
inductive HttpResult where
  | success (body : String)
  | httpError (code : Nat) (errorBody : String)

/-- `upload_file`'s response handling: a success parses the JSON body; a
non-success status raises one `RuntimeError` built by `uploadErrorMsg`
from the status code, the error body, the display name and the byte
length of the multipart body that was sent. -/
def uploadFileOutcome (boundary displayName fileData : String) (guess : Option String)
    (resp : HttpResult) : Except String String :=
  match resp with
  | .success b => .ok b
  | .httpError code eb =>
      .error (uploadErrorMsg code eb displayName
        (buildMultipart boundary displayName (resolveContentType displayName guess) fileData).length)

/-- C6: a non-success HTTP status makes `upload_file` raise exactly one
error whose message contains the status code, the error body, the
destination filename, and the exact byte size of the multipart body sent
(so an HTTP 507 yields an error containing "507", the display name and
the byte count). -/
theorem C6_upload_error_message (boundary displayName fileData : String)
    (guess : Option String) (code : Nat) (eb : String) :
    uploadFileOutcome boundary displayName fileData guess (HttpResult.httpError code eb)
      = Except.error (uploadErrorMsg code eb displayName
          (buildMultipart boundary displayName
            (resolveContentType displayName guess) fileData).length)
    ∧ (∀ n : Nat,
        isSubstr (toString code) (uploadErrorMsg code eb displayName n) = true
        ∧ isSubstr eb (uploadErrorMsg code eb displayName n) = true
        ∧ isSubstr displayName (uploadErrorMsg code eb displayName n) = true
        ∧ isSubstr (toString n) (uploadErrorMsg code eb displayName n) = true) := by
  refine ⟨rfl, fun n => ⟨?_, ?_, ?_, ?_⟩⟩
  · exact isSubstr_sandwich' (toString code) "Upload failed (HTTP " _
  · by_cases he : eb = ""
    · subst he
      exact isSubstr_nil_left _
    · unfold uploadErrorMsg
      rw [if_neg he]
      apply isSubstr_append_left
      apply isSubstr_append_left
      apply isSubstr_append_left
      exact isSubstr_self_append eb _
  · unfold uploadErrorMsg
    apply isSubstr_append_left
    apply isSubstr_append_left
    apply isSubstr_append_left
    apply isSubstr_append_left
    apply isSubstr_append_left
    exact isSubstr_self_append displayName _
  · unfold uploadErrorMsg
    apply isSubstr_append_left
    apply isSubstr_append_left
    apply isSubstr_append_left
    apply isSubstr_append_left
    apply isSubstr_append_left
    apply isSubstr_append_left
    apply isSubstr_append_left
    exact isSubstr_self_append (toString n) "]"

/-! ## Transfer orchestration (`plugin/__init__.py`,
`RemarkableUsbDevice.upload_books` and `delete_books`) -/

/-- The root of `os.path.splitext`: the path with its extension removed. -/
def splitextRoot (p : String) : String :=
  String.mk (p.data.take (p.data.length - (splitextExt p).data.length))

/-- The per-item working record `upload_books` assembles before the
conversion phase (the `upload_items` dicts; the metadata entry plays no
role in control flow and is omitted). -/
structure UploadItem where
  localPath : String
  visibleName : String
  uploadName : String
  needsConvert : Bool
deriving DecidableEq, Repr

/-- The assembly loop of `upload_books`: zip files with names, take the
basename as the upload name, and mark EPUBs for conversion when the
preferred format is pdf. -/
def mkUploadItems (preferredFormat : String) (files names : List String) : List UploadItem :=
  (files.zip names).map (fun p =>
    { localPath := p.1, visibleName := p.2, uploadName := basename p.2,
      needsConvert := preferredFormat = "pdf" && strLower (splitextExt p.1) = ".epub" })

/-- The conversion phase: each item needing conversion is converted (the
external `ebook-convert` collaborator enters as `convert`); the first
failure is propagated and aborts the phase; successes rewrite the item's
local path and rename the upload name to `.pdf`. -/
def convertPhase (convert : String → Except String String) :
    List UploadItem → Except (UploadItem × String) (List UploadItem)
  | [] => .ok []
  | it :: rest =>
    if it.needsConvert then
      match convert it.localPath with
      | .error e => .error (it, e)
      | .ok pdf =>
        match convertPhase convert rest with
        | .error f => .error f
        | .ok rest' =>
          .ok ({ it with localPath := pdf, uploadName := splitextRoot it.uploadName ++ ".pdf" } :: rest')
    else
      match convertPhase convert rest with
      | .error f => .error f
      | .ok rest' => .ok (it :: rest')

/-- A request issued against the device's web interface. -/
inductive ReqEvent where
  | navigate (folderId : String)
  | upload (folderId displayName : String)
deriving DecidableEq, Repr

def ReqEvent.isNav : ReqEvent → Bool
  | .navigate _ => true
  | .upload _ _ => false

/-- The requests `upload_file` issues: an optional pre-upload navigation
(`GET /documents/{folder_id}`) followed by the `POST /upload`. -/
def uploadFileEvents (folderId displayName : String) (navigate : Bool) : List ReqEvent :=
  (if navigate then [ReqEvent.navigate folderId] else []) ++
  [ReqEvent.upload folderId displayName]

/-- The result of `upload_books`: the device requests issued and either
the locations list or the propagated failure, paired with the error-log
line naming the failing item. -/
structure UploadBooksResult where
  events : List ReqEvent
  outcome : Except (String × String) (List String)
deriving Repr

/-- `upload_books` (two-phase pipeline): assemble items, convert EPUBs
(aborting the batch on the first failure, before any device request);
then navigate once to the resolved target folder (when non-root) and
upload each item in order with per-item navigation disabled. -/
def upload_books (convert : String → Except String String)
    (preferredFormat folderId : String) (files names : List String) : UploadBooksResult :=
  match convertPhase convert (mkUploadItems preferredFormat files names) with
  | .error (it, e) =>
      { events := [], outcome := .error ("Conversion failed for " ++ it.uploadName, e) }
  | .ok converted =>
      { events := (if folderId = "" then [] else [ReqEvent.navigate folderId]) ++
          converted.flatMap (fun it => uploadFileEvents folderId it.uploadName false),
        outcome := .ok (converted.map (fun it => it.visibleName)) }

/-- `delete_books`: raises `UserFeedback` before issuing any request or
touching any state; the booklists pass through unchanged. -/
structure UserFeedback where
  msg : String
  details : String
  level : Nat
deriving DecidableEq, Repr

/-- The feedback `delete_books` raises (level 1 stands for
`UserFeedback.WARNING` of the host API). -/
def deleteFeedback (paths : List String) : UserFeedback :=
  { msg := "Cannot delete via USB web interface",
    details := "The reMarkable USB web interface does not support deleting books.\n\nPlease delete these directly on your reMarkable:\n" ++
      joinWith "\n" (paths.map (fun p => "  - " ++ basename p)),
    level := 1 }

def delete_books (paths : List String) (booklists : List (List Book)) :
    Except UserFeedback Unit × List (List Book) × List ReqEvent :=
  (Except.error (deleteFeedback paths), booklists, [])

/-- When some queued item's conversion fails, `convertPhase` returns the
first such failure: the failing item, its error, and the aborted phase. -/
theorem convertPhase_error_of_failure (convert : String → Except String String) :
    ∀ l : List UploadItem,
      (∃ it ∈ l, it.needsConvert = true ∧ ∃ e, convert it.localPath = Except.error e) →
      ∃ it e, it ∈ l ∧ it.needsConvert = true ∧ convert it.localPath = Except.error e ∧
        convertPhase convert l = Except.error (it, e) := by
  intro l
  induction l with
  | nil =>
    rintro ⟨it, h, _⟩
    cases h
  | cons a rest ih =>
    rintro ⟨it, hmem, hconv, e, he⟩
    by_cases hna : a.needsConvert = true
    · cases hca : convert a.localPath with
      | error ea =>
        exact ⟨a, ea, List.mem_cons_self _ _, hna, hca, by simp [convertPhase, hna, hca]⟩
      | ok pdf =>
        have hrest : ∃ it ∈ rest, it.needsConvert = true ∧
            ∃ e, convert it.localPath = Except.error e := by
          rcases List.mem_cons.mp hmem with rfl | hm
          · rw [hca] at he
            cases he
          · exact ⟨it, hm, hconv, e, he⟩
        obtain ⟨it2, e2, hm2, hc2, he2, heq2⟩ := ih hrest
        refine ⟨it2, e2, List.mem_cons_of_mem _ hm2, hc2, he2, ?_⟩
        simp [convertPhase, hna, hca, heq2]
    · have hrest : ∃ it ∈ rest, it.needsConvert = true ∧
          ∃ e, convert it.localPath = Except.error e := by
        rcases List.mem_cons.mp hmem with rfl | hm
        · exact absurd hconv hna
        · exact ⟨it, hm, hconv, e, he⟩
      obtain ⟨it2, e2, hm2, hc2, he2, heq2⟩ := ih hrest
      refine ⟨it2, e2, List.mem_cons_of_mem _ hm2, hc2, he2, ?_⟩
      simp [convertPhase, hna, heq2]

/-- C3: if any item's conversion fails, `upload_books` issues no device
request at all (the upload phase is never started, including for items
whose conversion succeeded), propagates one failure carrying the
conversion error, and the surfaced error log names the failing item. -/
theorem C3_conversion_failure_aborts
    (convert : String → Except String String) (preferredFormat folderId : String)
    (files names : List String)
    (h : ∃ it ∈ mkUploadItems preferredFormat files names,
          it.needsConvert = true ∧ ∃ e, convert it.localPath = Except.error e) :
    (upload_books convert preferredFormat folderId files names).events = []
    ∧ ∃ it e, it ∈ mkUploadItems preferredFormat files names
        ∧ it.needsConvert = true
        ∧ convert it.localPath = Except.error e
        ∧ (upload_books convert preferredFormat folderId files names).outcome =
            Except.error ("Conversion failed for " ++ it.uploadName, e)
        ∧ isSubstr it.uploadName ("Conversion failed for " ++ it.uploadName) = true := by
  obtain ⟨it, e, hmem, hconv, he, heq⟩ :=
    convertPhase_error_of_failure convert (mkUploadItems preferredFormat files names) h
  unfold upload_books
  rw [heq]
  exact ⟨rfl, it, e, hmem, hconv, he, rfl, isSubstr_append_self_right _ _⟩

/-- C3 witness: a one-item batch whose conversion fails issues no device
request. -/
theorem C3_witness :
    (upload_books (fun _ => Except.error "boom") "pdf" "f1" ["x.epub"] ["X.epub"]).events = [] :=
  (C3_conversion_failure_aborts (fun _ => Except.error "boom") "pdf" "f1" ["x.epub"] ["X.epub"]
    ⟨{ localPath := "x.epub", visibleName := "X.epub", uploadName := "X.epub",
       needsConvert := true }, by decide, by decide, "boom", rfl⟩).1

theorem flatMap_uploadFileEvents (folderId : String) (l : List UploadItem) :
    l.flatMap (fun it => uploadFileEvents folderId it.uploadName false) =
      l.map (fun it => ReqEvent.upload folderId it.uploadName) := by
  induction l with
  | nil => rfl
  | cons a rest ih =>
    rw [List.flatMap_cons, ih]
    rfl

theorem no_navs_in_uploads (folderId : String) (l : List UploadItem) :
    ∀ ev ∈ l.map (fun it => ReqEvent.upload folderId it.uploadName),
      ReqEvent.isNav ev = false := by
  intro ev hev
  obtain ⟨it, _, rfl⟩ := List.mem_map.mp hev
  rfl

/-- C7: for a batch whose shared target folder resolved to a non-empty
folder id and whose conversion phase succeeded, `upload_books` issues
exactly one navigation request, as the first request before any upload,
and every per-item upload runs with navigation disabled, so no further
navigation occurs during the batch. -/
theorem C7_navigation_once
    (convert : String → Except String String) (preferredFormat folderId : String)
    (files names : List String) (converted : List UploadItem)
    (hok : convertPhase convert (mkUploadItems preferredFormat files names) =
      Except.ok converted)
    (hf : folderId ≠ "") :
    (upload_books convert preferredFormat folderId files names).events =
      ReqEvent.navigate folderId ::
        converted.map (fun it => ReqEvent.upload folderId it.uploadName)
    ∧ (upload_books convert preferredFormat folderId files names).events.countP
        ReqEvent.isNav = 1
    ∧ ∀ ev ∈ (upload_books convert preferredFormat folderId files names).events.tail,
        ReqEvent.isNav ev = false := by
  have hev : (upload_books convert preferredFormat folderId files names).events =
      ReqEvent.navigate folderId ::
        converted.map (fun it => ReqEvent.upload folderId it.uploadName) := by
    unfold upload_books
    rw [hok]
    simp [hf, flatMap_uploadFileEvents]
  refine ⟨hev, ?_, ?_⟩
  · rw [hev, List.countP_cons_of_pos _ _ (by rfl)]
    rw [List.countP_eq_zero.mpr]
    intro a ha
    rw [no_navs_in_uploads folderId converted a ha]
    exact Bool.false_ne_true
  · intro ev hevt
    rw [hev, List.tail_cons] at hevt
    exact no_navs_in_uploads folderId converted ev hevt

/-- C7 witness: a two-item batch into folder `f1` has the navigation as
its sole navigation request. -/
theorem C7_witness :
    (upload_books (fun p => Except.ok (p ++ ".pdf")) "pdf" "f1"
      ["a.epub", "b.pdf"] ["A.epub", "B.pdf"]).events.countP ReqEvent.isNav = 1 :=
  (C7_navigation_once (fun p => Except.ok (p ++ ".pdf")) "pdf" "f1"
    ["a.epub", "b.pdf"] ["A.epub", "B.pdf"]
    [{ localPath := "a.epub.pdf", visibleName := "A.epub", uploadName := "A.pdf",
       needsConvert := true },
     { localPath := "b.pdf", visibleName := "B.pdf", uploadName := "B.pdf",
       needsConvert := false }]
    rfl (by decide)).2.1

/-- C8: `delete_books` always fails with the capability `UserFeedback`,
issues no device request, and leaves the booklists exactly as they were. -/
theorem C8_delete_is_capability_failure (paths : List String)
    (booklists : List (List Book)) (_hne : paths ≠ []) :
    (delete_books paths booklists).1 = Except.error (deleteFeedback paths)
    ∧ (delete_books paths booklists).2.1 = booklists
    ∧ (delete_books paths booklists).2.2 = ([] : List ReqEvent)
    ∧ ∀ p ∈ paths, isSubstr (basename p) (deleteFeedback paths).details = true := by
  refine ⟨rfl, rfl, rfl, ?_⟩
  intro p hp
  unfold deleteFeedback
  apply isSubstr_append_left
  exact isSubstr_joinWith "\n" (basename p) ("  - " ++ basename p)
    (isSubstr_append_self_right _ _) _ (List.mem_map_of_mem _ hp)

/-- C8 witness: deleting one path fails, changes nothing, issues nothing. -/
theorem C8_witness :
    (delete_books ["Books/a.epub"] [[bookA]]).2.1 = [[bookA]] :=
  (C8_delete_is_capability_failure ["Books/a.epub"] [[bookA]] (by decide)).2.1

/-! ## Remote tree crawler (`plugin/rm_web_interface.py`,
`DeviceEntry`, `FileTree`, `build_file_tree`) -/

/-- A device listing entry as parsed by `DeviceEntry.from_json`. -/
structure DeviceEntry where
  entry_id : String
  parent_id : String
  name : String
  entry_type : String
  file_type : String
deriving DecidableEq, Repr

def COLLECTION : String := "CollectionType"

def DeviceEntry.is_folder (e : DeviceEntry) : Bool := e.entry_type = COLLECTION

/-- Lexicographic order on char lists by code point (Python string `<`). -/
def strLt : List Char → List Char → Bool
  | [], [] => false
  | [], _ :: _ => true
  | _ :: _, [] => false
  | a :: as, b :: bs =>
    if a.toNat < b.toNat then true
    else if b.toNat < a.toNat then false
    else strLt as bs

/-- Stable insertion used by `entries.sort(key=lambda e: e.parent_id)`:
an element goes before the first strictly greater key, after equal keys. -/
def insertByParent (e : DeviceEntry) : List DeviceEntry → List DeviceEntry
  | [] => [e]
  | x :: xs =>
    if strLt x.parent_id.data e.parent_id.data then x :: insertByParent e xs
    else e :: x :: xs

/-- The stable sort by `parent_id` applied to each listing response. -/
def sortByParent (l : List DeviceEntry) : List DeviceEntry := l.foldr insertByParent []

/-- The recursive file tree; a node is an entry paired with its (owned)
subtree, empty for non-folders. -/
inductive FileTree where
  | mk (entries : List (DeviceEntry × FileTree))
deriving Repr

def FileTree.entries : FileTree → List (DeviceEntry × FileTree)
  | .mk es => es

/-- `build_file_tree`, fuel form: the fuel is `max_depth - _depth`, which
the source decrements by recursing with `_depth + 1`. Also returns the
trace of folder ids fetched (each `fetch_documents` call). Exhausted fuel
returns an empty tree and issues no fetch. -/
def buildFileTreeFuel (fetch : String → List DeviceEntry) (rootId : String) :
    Nat → FileTree × List String
  | 0 => (FileTree.mk [], [])
  | fuel + 1 =>
    let nodes := (sortByParent (fetch rootId)).map (fun e =>
      if e.is_folder then
        ((e, (buildFileTreeFuel fetch e.entry_id fuel).1),
         (buildFileTreeFuel fetch e.entry_id fuel).2)
      else ((e, FileTree.mk []), []))
    (FileTree.mk (nodes.map Prod.fst), rootId :: (nodes.map Prod.snd).flatten)

/-- `build_file_tree(ip, root_id, _depth, max_depth)` with the remote
listing abstracted as `fetch`. -/
def build_file_tree (fetch : String → List DeviceEntry) (rootId : String)
    (depth maxDepth : Nat) : FileTree × List String :=
  buildFileTreeFuel fetch rootId (maxDepth - depth)

/-- C9: for every depth bound and every remote listing function (cyclic
or malformed trees included), `build_file_tree` terminates (it is a total
function of its fuel), and any call at depth ≥ max_depth returns an empty
tree without issuing a single fetch. -/
theorem C9_depth_bound_stops_crawl (fetch : String → List DeviceEntry)
    (rootId : String) (depth maxDepth : Nat) (h : maxDepth ≤ depth) :
    build_file_tree fetch rootId depth maxDepth = (FileTree.mk [], []) := by
  unfold build_file_tree
  rw [Nat.sub_eq_zero_of_le h]
  rfl

/-- A cyclic "remote": one folder whose listing contains itself. -/
def cyclicFetch : String → List DeviceEntry := fun _ =>
  [{ entry_id := "loop", parent_id := "", name := "f", entry_type := "CollectionType",
     file_type := "" }]

/-- C9 witness: at the depth bound, the crawl of a cyclic tree stops with
an empty subtree and no fetch. -/
theorem C9_witness : build_file_tree cyclicFetch "loop" 20 20 = (FileTree.mk [], []) :=
  C9_depth_bound_stops_crawl cyclicFetch "loop" 20 20 (by decide)

/-- Duplicate-freedom of a list of ids. -/
def listNodup : List String → Bool
  | [] => true
  | x :: xs => (!xs.contains x) && listNodup xs

theorem listNodup_iff (l : List String) : listNodup l = true ↔ l.Nodup := by
  induction l with
  | nil => simp [listNodup]
  | cons x xs ih =>
    simp [listNodup, List.nodup_cons, ih, List.elem_iff]

mutual

/-- All levels of a tree have ids unique within the level. -/
def treeLevelsNodup : FileTree → Bool
  | .mk ns => listNodup (ns.map (fun p => p.1.entry_id)) && nodesLevelsNodup ns

/-- Helper for `treeLevelsNodup` over a node list. -/
def nodesLevelsNodup : List (DeviceEntry × FileTree) → Bool
  | [] => true
  | (_, t) :: rest => treeLevelsNodup t && nodesLevelsNodup rest

end

theorem insertByParent_perm (e : DeviceEntry) (l : List DeviceEntry) :
    List.Perm (insertByParent e l) (e :: l) := by
  induction l with
  | nil => exact List.Perm.refl _
  | cons x xs ih =>
    unfold insertByParent
    by_cases h : strLt x.parent_id.data e.parent_id.data = true
    · rw [if_pos h]
      exact (ih.cons x).trans (List.Perm.swap e x xs)
    · rw [if_neg h]

theorem sortByParent_perm (l : List DeviceEntry) :
    List.Perm (sortByParent l) l := by
  induction l with
  | nil => exact List.Perm.refl _
  | cons a xs ih =>
    exact (insertByParent_perm a (sortByParent xs)).trans (ih.cons a)

theorem map_fst_ids (fetch : String → List DeviceEntry) (fuel : Nat)
    (entries : List DeviceEntry) :
    ((entries.map (fun e =>
        if e.is_folder then
          ((e, (buildFileTreeFuel fetch e.entry_id fuel).1),
           (buildFileTreeFuel fetch e.entry_id fuel).2)
        else ((e, FileTree.mk []), []))).map Prod.fst).map (fun p => p.1.entry_id) =
      entries.map (fun e => e.entry_id) := by
  induction entries with
  | nil => rfl
  | cons a rest ih =>
    simp only [List.map_cons, ih]
    by_cases h : a.is_folder = true <;> simp [h]

/-- C10 (amended): provided every single listing response is itself free
of duplicate ids, every level of every `build_file_tree` result has
entries unique by id (the crawler copies each response verbatim — sorted,
never deduplicated — so uniqueness within a level is exactly uniqueness
of the response). -/
theorem C10_level_ids_unique (fetch : String → List DeviceEntry)
    (hfetch : ∀ pid, listNodup ((fetch pid).map (fun e => e.entry_id)) = true)
    (depth maxDepth : Nat) (rootId : String) :
    treeLevelsNodup (build_file_tree fetch rootId depth maxDepth).1 = true := by
  unfold build_file_tree
  generalize maxDepth - depth = fuel
  induction fuel generalizing rootId with
  | zero => rfl
  | succ fuel ih =>
    show treeLevelsNodup (FileTree.mk
      (((sortByParent (fetch rootId)).map (fun e =>
        if e.is_folder then
          ((e, (buildFileTreeFuel fetch e.entry_id fuel).1),
           (buildFileTreeFuel fetch e.entry_id fuel).2)
        else ((e, FileTree.mk []), []))).map Prod.fst)) = true
    rw [treeLevelsNodup]
    rw [Bool.and_eq_true]
    constructor
    · rw [map_fst_ids]
      have hperm := (sortByParent_perm (fetch rootId)).map (fun e => e.entry_id)
      exact (listNodup_iff _).mpr (hperm.nodup_iff.mpr ((listNodup_iff _).mp (hfetch rootId)))
    · have haux : ∀ l : List DeviceEntry,
          nodesLevelsNodup ((l.map (fun e =>
            if e.is_folder then
              ((e, (buildFileTreeFuel fetch e.entry_id fuel).1),
               (buildFileTreeFuel fetch e.entry_id fuel).2)
            else ((e, FileTree.mk []), []))).map Prod.fst) = true := by
        intro l
        induction l with
        | nil => rfl
        | cons a rest ihl =>
          simp only [List.map_cons]
          by_cases h : a.is_folder = true
          · simp only [h, if_true]
            rw [nodesLevelsNodup, Bool.and_eq_true]
            exact ⟨ih a.entry_id, ihl⟩
          · simp only [h, if_false]
            rw [nodesLevelsNodup, Bool.and_eq_true]
            exact ⟨rfl, ihl⟩
      exact haux (sortByParent (fetch rootId))

/-- A malformed remote whose root listing repeats an id. -/
def dupFetch : String → List DeviceEntry := fun _ =>
  [{ entry_id := "a", parent_id := "", name := "x", entry_type := "DocumentType",
     file_type := "pdf" },
   { entry_id := "a", parent_id := "", name := "y", entry_type := "DocumentType",
     file_type := "epub" }]

/-- C10 counterexample: from an arbitrary (here: duplicate-carrying)
listing response, `build_file_tree` produces a level with two nodes
sharing `entry_id` — the crawler never deduplicates ids. -/
theorem C10_counterexample :
    treeLevelsNodup (build_file_tree dupFetch "" 0 20).1 = false := by decide

/-- A well-formed remote: the root lists one folder `d1` holding one
document; every level is duplicate-free. -/
def okFetch : String → List DeviceEntry := fun pid =>
  if pid = "" then
    [{ entry_id := "d1", parent_id := "", name := "Books",
       entry_type := "CollectionType", file_type := "" }]
  else if pid = "d1" then
    [{ entry_id := "b1", parent_id := "d1", name := "book.pdf",
       entry_type := "DocumentType", file_type := "pdf" }]
  else []

/-- C10 witness: the amended uniqueness theorem applied to `okFetch`. -/
theorem C10_witness : treeLevelsNodup (build_file_tree okFetch "" 0 20).1 = true :=
  C10_level_ids_unique okFetch (fun pid => by
    unfold okFetch
    by_cases h0 : pid = ""
    · simp [h0, listNodup]
    · by_cases h1 : pid = "d1" <;> simp [h0, h1, listNodup]) 0 20 ""

end RMPlugin
